import Mathlib

/-!
Shallow embedding of the BC66 NB-IoT modem driver protocol engine from
src/bc66_drv.c: the AT command registry, the request formatter, the
receive-buffer matcher, the timeout-bounded wait loop and the session entry
points.  C strings are modelled as NUL-free `List Char`; the byte transport is
modelled as the list of chunks returned by the successive non-blocking reads of
one transaction; the global mutable driver state is threaded explicitly as a
`Bc66State` record.  An out-of-bounds array access in the C source (which is
undefined behaviour there) is modelled by the explicit marker `SendRet.oobRead`.
-/

namespace BC66

/-- Return codes of the driver, from the C enumeration bc66_ret_t in
bc66_drv.h. -/
inductive Bc66Ret
  | success
  | timeout
  | error
  | fail
  | outOfRange
  | notInit
  | noIp
  | packetRetransmission
  | packetFail
  | errProtocol
  | idRejected
  | noCmdImplemented
  deriving DecidableEq

/-- Operation kinds of an AT command, from the C enumeration bc66_cmd_type_t. -/
inductive CmdType
  | test
  | read
  | write
  | exe
  deriving DecidableEq

/-- Line terminator, the C macros CMD_END_LINE and RSP_END_OF_LINE
(both "\r\n"). -/
def CRLF : List Char := ['\r', '\n']

/-- Canonical success response, the C macro RSP_OK ("\r\nOK\r\n"). -/
def RSP_OK : List Char := ['\r', '\n', 'O', 'K', '\r', '\n']

/-- Maximum extracted-response size, the C macro MAX_RSP_SIZE (64): the matcher
refuses spans whose length is not strictly below this bound. -/
def MAX_RSP_SIZE : Nat := 64

/-- Capacity in bytes of the C receive buffer rx_buffer (declared
uint8_t rx_buffer[512]; one byte is reserved for the NUL terminator of the
C string, so at most 511 characters fit without undefined behaviour). -/
def RX_BUFFER_CAP : Nat := 512

/-- One entry of the command registry, from the C struct bc66_at_cmd_t: the
mnemonic, the four supported-kind flags (TEST, READ, WRITE, EXE), the expected
command response and the response timeout in wait units. -/
structure AtCmd where
  cmd : List Char
  flagTest : Bool
  flagRead : Bool
  flagWrite : Bool
  flagExe : Bool
  cmd_rsp : Option (List Char)
  rsp_timeout : Nat
  deriving DecidableEq

/-- The command registry, transcribed entry by entry from the C array
bc66_cmds_list (22 entries, declaration order equal to the enumeration
bc66_cmd_list_t: AT, ATI, ATE, CEREG, CESQ, CGATT, CGPADDR, QCGDEFCONT, QBAND,
CIMI, CPIN, CPSMS, QNBIOTEVENT, QSCLK, QMTCFG, QMTOPEN, QMTCLOSE, QMTCONN,
QMTDISC, QMTSUB, QMTUNS, QMTPUB).  All entries expect RSP_OK. -/
def bc66_cmds_list : List AtCmd := [
  ⟨"".data, false, false, false, true, some RSP_OK, 300⟩,
  ⟨"I".data, false, false, false, true, some RSP_OK, 300⟩,
  ⟨"E".data, false, false, false, true, some RSP_OK, 300⟩,
  ⟨"+CEREG".data, true, true, true, false, some RSP_OK, 300⟩,
  ⟨"+CESQ".data, true, false, false, true, some RSP_OK, 300⟩,
  ⟨"+CGATT".data, true, true, true, false, some RSP_OK, 85000⟩,
  ⟨"+CGPADDR".data, true, true, true, true, some RSP_OK, 300⟩,
  ⟨"+QCGDEFCONT".data, true, true, true, false, some RSP_OK, 300⟩,
  ⟨"+QBAND".data, true, true, true, false, some RSP_OK, 300⟩,
  ⟨"+CIMI".data, true, false, false, true, some RSP_OK, 300⟩,
  ⟨"+CPIN".data, true, true, true, false, some RSP_OK, 5000⟩,
  ⟨"+CPSMS".data, true, true, true, false, some RSP_OK, 300⟩,
  ⟨"+QNBIOTEVENT".data, true, true, true, false, some RSP_OK, 300⟩,
  ⟨"+QSCLK".data, true, true, true, false, some RSP_OK, 300⟩,
  ⟨"+QMTCFG".data, true, false, true, false, some RSP_OK, 300⟩,
  ⟨"+QMTOPEN".data, true, true, true, false, some RSP_OK, 75000⟩,
  ⟨"AT+QMTCLOSE".data, true, false, true, false, some RSP_OK, 300⟩,
  ⟨"+QMTCONN".data, true, true, true, false, some RSP_OK, 10000⟩,
  ⟨"+QMTDISC".data, true, false, true, false, some RSP_OK, 300⟩,
  ⟨"+QMTSUB".data, true, false, true, false, some RSP_OK, 40000⟩,
  ⟨"+QMTUNS".data, true, false, true, false, some RSP_OK, 40000⟩,
  ⟨"+QMTPUB".data, true, false, true, false, some RSP_OK, 40000⟩]

/-- Model of the C library function strstr(haystack, needle): the index of the
first occurrence of pat in s, or none.  An empty pat matches at index 0, as in
C. -/
def strstr : List Char → List Char → Option Nat
  | [], pat => if pat.isPrefixOf ([] : List Char) then some 0 else none
  | c :: s, pat =>
    if pat.isPrefixOf (c :: s) then some 0
    else Option.map (fun n => n + 1) (strstr s pat)

/-- Model of the C matcher function (bc66_drv.c lines 362 to 386, the static
response-finder called by the wait loop): look for the first occurrence of rsp
in str, then for the line terminator starting ONE character past the start of
that occurrence; the span runs from the occurrence to the end of the
terminator and its length is accepted only strictly below MAX_RSP_SIZE.  On a
match the result is (copied span, buffer with exactly that span removed); on no
match the buffer is returned unchanged, exactly as the C function leaves
rx_buffer untouched on every failing path. -/
def bc66_at_parse (str rsp : List Char) : Option (List Char) × List Char :=
  match strstr str rsp with
  | none => (none, str)
  | some i =>
    match strstr (str.drop (i + 1)) CRLF with
    | none => (none, str)
    | some j =>
      if j + 3 < MAX_RSP_SIZE then
        (some ((str.drop i).take (j + 3)), str.take i ++ str.drop (i + 1 + j + 2))
      else (none, str)

/-- Outcome of one run of the wait loop: the return code, the final receive
buffer, the text copied to rx_last_response if a match was found, and how many
times the delay primitive and the transport read were invoked. -/
structure FindResult where
  ret : Bc66Ret
  rxBuffer : List Char
  found : Option (List Char)
  delays : Nat
  reads : Nat
  deriving DecidableEq

/-- Model of the C wait loop _bc66_find_at_response (bc66_drv.c lines 399 to
419): while the countdown is nonzero, delay one unit, read one chunk from the
transport (an exhausted chunk list models reads that return no bytes), append
it to the receive buffer with no capacity check (the C strcat), and try to
match; on match copy the span to the last-response cache and return success,
otherwise decrement and continue; countdown zero gives timeout. -/
def bc66_find_at_response (rsp : List Char) : Nat → List (List Char) → List Char → FindResult
  | 0, _, rx => ⟨Bc66Ret.timeout, rx, none, 0, 0⟩
  | t + 1, chunks, rx =>
    let rx2 := rx ++ chunks.headD []
    match bc66_at_parse rx2 rsp with
    | (some fnd, newRx) => ⟨Bc66Ret.success, newRx, some fnd, 1, 1⟩
    | (none, _) =>
      let r := bc66_find_at_response rsp t chunks.tail rx2
      { r with delays := r.delays + 1, reads := r.reads + 1 }

/-- Driver state: whether a session object is bound (the C global pointer
bc66), plus the global buffers tx_buffer, rx_buffer and rx_last_response. -/
structure Bc66State where
  initialized : Bool
  txBuffer : List Char
  rxBuffer : List Char
  rxLastResponse : List Char
  deriving DecidableEq

/-- Result kind of one bc66_send_at_command call: either one of the C return
codes, or the marker for the out-of-bounds registry read the C code performs
when the command index is outside the table (undefined behaviour in C). -/
inductive SendRet
  | ret (code : Bc66Ret)
  | oobRead
  deriving DecidableEq

/-- Full observable outcome of one bc66_send_at_command call: result, final
state, list of transport writes performed, and counts of delay and read
invocations. -/
structure SendResult where
  ret : SendRet
  state : Bc66State
  writes : List (List Char)
  delays : Nat
  reads : Nat
  deriving DecidableEq

/-- Token the wait loop matches on: the caller-supplied expected response if
present, otherwise the cmd_rsp field of the descriptor (bc66_drv.c lines 499
to 506). -/
def effectiveToken (expRsp : Option (List Char)) (desc : AtCmd) : Option (List Char) :=
  match expRsp with
  | some r => some r
  | none => desc.cmd_rsp

/-- Model of bc66_send_at_command (bc66_drv.c lines 434 to 509).  Faithful
points: (1) an unbound session returns bc66_ret_not_init before touching
anything; (2) the receive buffer is flushed, the transmit buffer is NOT (the C
helper _bc66_tx_buffer_flush clears rx_buffer, and bc66_send_at_command never
calls it anyway); (3) the registry is indexed without a bounds check, an
out-of-range index being the oobRead marker; (4) each kind formats the command
only when the corresponding flag is set, and when the flag is NOT set nothing
is formatted yet the line terminator is still appended to the stale transmit
buffer, the transport write is still invoked and the wait still runs; (5) the
variadic printf arguments are modelled as optional pre-formatted text appended
for the write and exe kinds. -/
def bc66_send_at_command (cmdType : CmdType) (cmdIdx : Nat)
    (expRsp args : Option (List Char)) (chunks : List (List Char))
    (s : Bc66State) : SendResult :=
  if s.initialized = false then
    ⟨SendRet.ret Bc66Ret.notInit, s, [], 0, 0⟩
  else
    let s1 : Bc66State := { s with rxBuffer := [] }
    match bc66_cmds_list.get? cmdIdx with
    | none => ⟨SendRet.oobRead, s1, [], 0, 0⟩
    | some desc =>
      let tx0 : List Char :=
        match cmdType with
        | CmdType.test =>
          if desc.flagTest then "AT".data ++ desc.cmd ++ "=?".data else s1.txBuffer
        | CmdType.read =>
          if desc.flagRead then "AT".data ++ desc.cmd ++ "?".data else s1.txBuffer
        | CmdType.write =>
          if desc.flagWrite then "AT".data ++ desc.cmd ++ "=".data ++ args.getD []
          else s1.txBuffer
        | CmdType.exe =>
          if desc.flagExe then "AT".data ++ desc.cmd ++ args.getD []
          else s1.txBuffer
      let tx := tx0 ++ CRLF
      let s2 : Bc66State := { s1 with txBuffer := tx }
      match effectiveToken expRsp desc with
      | none => ⟨SendRet.ret Bc66Ret.success, s2, [tx], 0, 0⟩
      | some tok =>
        let fr := bc66_find_at_response tok desc.rsp_timeout chunks s2.rxBuffer
        ⟨SendRet.ret fr.ret,
         { s2 with rxBuffer := fr.rxBuffer,
                   rxLastResponse := fr.found.getD s2.rxLastResponse },
         [tx], fr.delays, fr.reads⟩

/-- Model of bc66_get_last_response (bc66_drv.c lines 582 to 585): returns the
rx_last_response buffer. -/
def bc66_get_last_response (s : Bc66State) : List Char := s.rxLastResponse

/-- Calls a hardware-reset sequence makes to the control lines and the delay
primitive. -/
inductive HwEvent
  | resetPin (value : Nat)
  | delayMs (ms : Nat)
  deriving DecidableEq

/-- Model of bc66_hw_reset (bc66_drv.c lines 534 to 545): when a session is
bound, pulse MDM_RESET_N high for 100 ms then low for 100 ms; in every case the
function falls through to return bc66_ret_error (the only success return is
commented out in the source). -/
def bc66_hw_reset (s : Bc66State) : List HwEvent × Bc66Ret :=
  if s.initialized then
    ([HwEvent.resetPin 1, HwEvent.delayMs 100, HwEvent.resetPin 0, HwEvent.delayMs 100],
     Bc66Ret.error)
  else ([], Bc66Ret.error)

/-- Example bound-session state with a stale transmit buffer and a cached
response from an earlier transaction, used in the concrete runs below. -/
def sInit : Bc66State :=
  { initialized := true, txBuffer := "STALE".data, rxBuffer := "OLD".data,
    rxLastResponse := "PREV".data }

/-- Example unbound-session state (before bc66_init or after bc66_deinit). -/
def sNoInit : Bc66State :=
  { initialized := false, txBuffer := [], rxBuffer := [],
    rxLastResponse := "PREV".data }

/-- Transport chunks of the +CPIN scenario: the response
"\r\n+CPIN: READY\r\n\r\nOK\r\n" delivered in two reads. -/
def cpinChunks : List (List Char) := ["\r\n+CPIN: READY\r\n".data, "\r\nOK\r\n".data]

/-- Nine transport reads of 63 bytes each, none containing the expected token:
enough to drive the receive buffer past its 512-byte capacity. -/
def floodChunks : List (List Char) := List.replicate 9 (List.replicate 63 'A')

/-! Helper lemmas characterising `strstr`, the matcher and the wait loop. -/

theorem strstr_of_isPrefixOf {s pat : List Char} (h : pat.isPrefixOf s = true) :
    strstr s pat = some 0 := by
  cases s with
  | nil => simp [strstr, h]
  | cons c t => simp [strstr, h]

theorem strstr_eq_none_of {s pat : List Char}
    (h : ∀ j, pat.isPrefixOf (s.drop j) = false) :
    strstr s pat = none := by
  induction s with
  | nil =>
    have h0 : pat.isPrefixOf ([] : List Char) = false := h 0
    simp [strstr, h0]
  | cons c t ih =>
    have h0 : pat.isPrefixOf (c :: t) = false := h 0
    have ht : ∀ j, pat.isPrefixOf (t.drop j) = false := fun j => h (j + 1)
    simp [strstr, h0, ih ht]

theorem strstr_eq_some_of {s pat : List Char} {i : Nat}
    (h1 : pat.isPrefixOf (s.drop i) = true)
    (h2 : ∀ j, j < i → pat.isPrefixOf (s.drop j) = false) :
    strstr s pat = some i := by
  induction s generalizing i with
  | nil =>
    cases i with
    | zero => exact strstr_of_isPrefixOf h1
    | succ n =>
      have hA : pat.isPrefixOf ([] : List Char) = true := h1
      have hB : pat.isPrefixOf ([] : List Char) = false := h2 0 (Nat.succ_pos n)
      rw [hA] at hB
      exact Bool.noConfusion hB
  | cons c t ih =>
    cases i with
    | zero => exact strstr_of_isPrefixOf h1
    | succ n =>
      have h0 : pat.isPrefixOf (c :: t) = false := h2 0 (Nat.succ_pos n)
      have hrec := ih (i := n) h1 (fun j hj => h2 (j + 1) (Nat.succ_lt_succ hj))
      simp [strstr, h0, hrec]

theorem parse_of_strstr_none {str rsp : List Char} (h : strstr str rsp = none) :
    bc66_at_parse str rsp = (none, str) := by
  simp [bc66_at_parse, h]

/-- If a pattern of length at least two is a prefix of an append, and the left
part holds at least two characters, the pattern restricted to its first two
characters is determined by the left part. -/
theorem crlf_prefix_split {x y : Char} {d rest : List Char}
    (h : CRLF.isPrefixOf (x :: y :: d ++ rest) = true) :
    CRLF.isPrefixOf (x :: y :: d) = true := by
  rcases List.isPrefixOf_iff_prefix.mp h with ⟨t, ht⟩
  have ht2 : '\r' :: '\n' :: t = x :: y :: (d ++ rest) := ht
  obtain ⟨hx, ht3⟩ := List.cons.inj ht2
  obtain ⟨hy, _⟩ := List.cons.inj ht3
  subst hx
  subst hy
  rw [List.isPrefixOf_iff_prefix]
  exact ⟨d, rfl⟩

/-- A run of the wait loop during which the expected token never occurs in the
accumulated receive buffer: it times out, invokes the delay primitive and the
read exactly countdown many times, and ends with the buffer holding the whole
accumulated input. -/
theorem find_never_match (tok : List Char) (n : Nat) :
    ∀ (chunks : List (List Char)) (rx : List Char),
    (∀ k, strstr (rx ++ (List.take k chunks).flatten) tok = none) →
    bc66_find_at_response tok n chunks rx =
      ⟨Bc66Ret.timeout, rx ++ (List.take n chunks).flatten, none, n, n⟩ := by
  induction n with
  | zero =>
    intro chunks rx _
    simp [bc66_find_at_response]
  | succ t ih =>
    intro chunks rx h
    cases chunks with
    | nil =>
      have h1 : strstr (rx ++ ([] : List Char)) tok = none := by
        have := h 0
        simpa using this
      have hparse := parse_of_strstr_none h1
      have hrec := ih [] (rx ++ []) (by intro k; simpa using h 0)
      simp only [bc66_find_at_response, List.headD, List.tail]
      rw [hparse, hrec]
      simp
    | cons c cs =>
      have h1 : strstr (rx ++ c) tok = none := by
        have := h 1
        simpa using this
      have hparse := parse_of_strstr_none h1
      have hrec := ih cs (rx ++ c) (by
        intro k
        have := h (k + 1)
        simpa [List.flatten, List.append_assoc] using this)
      simp only [bc66_find_at_response, List.headD, List.tail]
      rw [hparse, hrec]
      simp [List.flatten, List.append_assoc]

/-- Every run of the wait loop either succeeds, or times out having written
nothing to the last-response cache. -/
theorem find_ret_cases (rsp : List Char) (n : Nat) :
    ∀ (chunks : List (List Char)) (rx : List Char),
    (bc66_find_at_response rsp n chunks rx).ret = Bc66Ret.success ∨
    ((bc66_find_at_response rsp n chunks rx).ret = Bc66Ret.timeout ∧
     (bc66_find_at_response rsp n chunks rx).found = none) := by
  induction n with
  | zero =>
    intro chunks rx
    right
    exact ⟨rfl, rfl⟩
  | succ t ih =>
    intro chunks rx
    simp only [bc66_find_at_response]
    rcases hpr : bc66_at_parse (rx ++ chunks.headD []) rsp with ⟨fst, snd⟩
    cases fst with
    | some fnd => left; rfl
    | none =>
      rcases ih chunks.tail (rx ++ chunks.headD []) with hs | ⟨hto, hfo⟩
      · left; simpa using hs
      · right
        constructor
        · simpa using hto
        · simpa using hfo

/-! Claims. -/

set_option maxRecDepth 4000 in
/-- C1 (code bug in bc66_drv.c): with a bound session and an operation kind the
descriptor does not support (here Test on registry entry 0, which supports only
Execute), bc66_send_at_command does NOT return an unsupported-operation error
and does NOT keep the transport untouched: the switch silently skips
formatting, the line terminator is appended to the stale transmit buffer, that
buffer is written to the transport, and the call then polls until it times
out. -/
theorem c1_unsupported_kind_still_transmits :
    (bc66_send_at_command CmdType.test 0 none none [] sInit).writes =
      ["STALE\r\n".data] ∧
    (bc66_send_at_command CmdType.test 0 none none [] sInit).ret =
      SendRet.ret Bc66Ret.timeout ∧
    (bc66_send_at_command CmdType.test 0 none none [] sInit).delays = 300 := by
  refine ⟨by decide, by decide, by decide⟩

set_option maxRecDepth 4000 in
/-- C2 (code bug in bc66_drv.c): the wait loop appends transport bytes to the
receive buffer with a plain strcat and no capacity check: nine 63-byte reads
drive the buffer to 567 characters, past the 512-byte capacity of the C array
rx_buffer (an out-of-bounds write, undefined behaviour, in the C code), while
the transaction keeps polling and ends in a plain timeout; no append is ever
rejected and bc66_ret_t has no buffer-overflow code at all. -/
theorem c2_rx_buffer_exceeds_capacity :
    RX_BUFFER_CAP <
      (bc66_find_at_response "OK".data 9 floodChunks []).rxBuffer.length ∧
    (bc66_find_at_response "OK".data 9 floodChunks []).ret = Bc66Ret.timeout := by
  refine ⟨by decide, by decide⟩

/-- C5: for the +CPIN registry entry (index 10: kinds Test/Read/Write, expected
response RSP_OK, timeout 5000), a Read send with no expected-response override
and no arguments transmits exactly "AT+CPIN?\r\n"; with the transport
delivering "\r\n+CPIN: READY\r\n\r\nOK\r\n" split across two reads, the call
returns success with matched text "\r\nOK\r\n", and bc66_get_last_response
then returns that same text. -/
theorem c5_cpin_read_scenario :
    bc66_cmds_list.get? 10 =
      some ⟨"+CPIN".data, true, true, true, false, some RSP_OK, 5000⟩ ∧
    (bc66_send_at_command CmdType.read 10 none none cpinChunks sInit).writes =
      ["AT+CPIN?\r\n".data] ∧
    (bc66_send_at_command CmdType.read 10 none none cpinChunks sInit).ret =
      SendRet.ret Bc66Ret.success ∧
    bc66_get_last_response
        (bc66_send_at_command CmdType.read 10 none none cpinChunks sInit).state =
      "\r\nOK\r\n".data := by
  refine ⟨by decide, by decide, by decide, by decide⟩

/-- C6 (code bug in bc66_drv.c): for every index outside the 22 declared
registry entries, bc66_send_at_command reads bc66_cmds_list out of bounds with
no check whatsoever — undefined behaviour in the C code, modelled here by the
oobRead marker — instead of failing with an unknown-command error (bc66_ret_t
does not even define such a code); nothing is transmitted on this path. -/
theorem c6_out_of_range_index_is_oob_read (cmdType : CmdType) (cmdIdx : Nat)
    (expRsp args : Option (List Char)) (chunks : List (List Char))
    (s : Bc66State) (hinit : s.initialized = true)
    (hidx : bc66_cmds_list.length ≤ cmdIdx) :
    (bc66_send_at_command cmdType cmdIdx expRsp args chunks s).ret =
      SendRet.oobRead ∧
    (bc66_send_at_command cmdType cmdIdx expRsp args chunks s).writes = [] := by
  have hnone : bc66_cmds_list[cmdIdx]? = none := List.getElem?_eq_none hidx
  constructor <;> simp [bc66_send_at_command, hinit, hnone]

/-- C6 witness: index 22 (the value of bc66_cmd_list_size) is out of range and
hits the out-of-bounds read. -/
theorem c6_witness :
    (bc66_send_at_command CmdType.read 22 none none [] sInit).ret =
      SendRet.oobRead ∧
    (bc66_send_at_command CmdType.read 22 none none [] sInit).writes = [] :=
  c6_out_of_range_index_is_oob_read CmdType.read 22 none none [] sInit rfl
    (by decide)

/-- C7: with no session bound, every bc66_send_at_command call returns
bc66_ret_not_init immediately: the state is untouched and no transport write,
read or delay happens. -/
theorem c7_not_initialized_rejects (cmdType : CmdType) (cmdIdx : Nat)
    (expRsp args : Option (List Char)) (chunks : List (List Char))
    (s : Bc66State) (h : s.initialized = false) :
    bc66_send_at_command cmdType cmdIdx expRsp args chunks s =
      ⟨SendRet.ret Bc66Ret.notInit, s, [], 0, 0⟩ := by
  simp [bc66_send_at_command, h]

/-- C7 witness: a concrete call on the unbound state. -/
theorem c7_witness :
    bc66_send_at_command CmdType.read 10 none none cpinChunks sNoInit =
      ⟨SendRet.ret Bc66Ret.notInit, sNoInit, [], 0, 0⟩ :=
  c7_not_initialized_rejects CmdType.read 10 none none cpinChunks sNoInit rfl

/-- C9: bc66_hw_reset returns bc66_ret_error on every call — both with no
session bound (where it does nothing) and with a session bound (where it fully
performs the reset-pin pulse-and-hold sequence). -/
theorem c9_hw_reset_always_error (s : Bc66State) :
    (bc66_hw_reset s).2 = Bc66Ret.error ∧
    (bc66_hw_reset s).1 =
      (if s.initialized then
        [HwEvent.resetPin 1, HwEvent.delayMs 100, HwEvent.resetPin 0,
         HwEvent.delayMs 100]
      else []) := by
  cases h : s.initialized <;> simp [bc66_hw_reset, h]

/-- C9 witness: the concrete bound state runs the full pulse sequence and
still returns the error code. -/
theorem c9_witness :
    (bc66_hw_reset sInit).2 = Bc66Ret.error ∧
    (bc66_hw_reset sInit).1 =
      (if sInit.initialized then
        [HwEvent.resetPin 1, HwEvent.delayMs 100, HwEvent.resetPin 0,
         HwEvent.delayMs 100]
      else []) :=
  c9_hw_reset_always_error sInit

/-- C4: a send whose wait token never occurs in anything the transport has
delivered returns the timeout code after invoking the delay primitive exactly
rsp_timeout many times — the full countdown of the descriptor, never fewer. -/
theorem c4_timeout_consumes_full_countdown (cmdType : CmdType) (cmdIdx : Nat)
    (expRsp args : Option (List Char)) (chunks : List (List Char))
    (s : Bc66State) (desc : AtCmd) (tok : List Char)
    (hinit : s.initialized = true)
    (hdesc : bc66_cmds_list[cmdIdx]? = some desc)
    (htok : effectiveToken expRsp desc = some tok)
    (hnever : ∀ k, strstr (List.take k chunks).flatten tok = none) :
    (bc66_send_at_command cmdType cmdIdx expRsp args chunks s).ret =
      SendRet.ret Bc66Ret.timeout ∧
    (bc66_send_at_command cmdType cmdIdx expRsp args chunks s).delays =
      desc.rsp_timeout := by
  have hfind := find_never_match tok desc.rsp_timeout chunks []
    (by intro k; simpa using hnever k)
  constructor <;> simp [bc66_send_at_command, hinit, hdesc, htok, hfind]

/-- C4 witness: entry 0 (timeout 300) with a transport that never delivers
anything times out after exactly 300 delay invocations. -/
theorem c4_witness :
    (bc66_send_at_command CmdType.exe 0 none none [] sInit).ret =
      SendRet.ret Bc66Ret.timeout ∧
    (bc66_send_at_command CmdType.exe 0 none none [] sInit).delays = 300 := by
  have h := c4_timeout_consumes_full_countdown CmdType.exe 0 none none [] sInit
    ⟨"".data, false, false, false, true, some RSP_OK, 300⟩ RSP_OK rfl rfl rfl
    (fun k => by cases k <;> rfl)
  simpa using h

/-- C10: the last-response cache is overwritten only when a wait finds a match;
every bc66_send_at_command call that returns the not-initialized code, the
no-command-implemented code or the timeout code leaves rx_last_response
exactly as it was, so bc66_get_last_response still returns the text matched by
the most recent successful transaction. -/
theorem c10_failures_preserve_last_response (cmdType : CmdType) (cmdIdx : Nat)
    (expRsp args : Option (List Char)) (chunks : List (List Char))
    (s : Bc66State)
    (h : (bc66_send_at_command cmdType cmdIdx expRsp args chunks s).ret =
           SendRet.ret Bc66Ret.notInit ∨
         (bc66_send_at_command cmdType cmdIdx expRsp args chunks s).ret =
           SendRet.ret Bc66Ret.noCmdImplemented ∨
         (bc66_send_at_command cmdType cmdIdx expRsp args chunks s).ret =
           SendRet.ret Bc66Ret.timeout) :
    bc66_get_last_response
        (bc66_send_at_command cmdType cmdIdx expRsp args chunks s).state =
      bc66_get_last_response s := by
  by_cases hinit : s.initialized = false
  · simp [bc66_send_at_command, bc66_get_last_response, hinit]
  · rcases hg : bc66_cmds_list[cmdIdx]? with _ | desc
    · simp [bc66_send_at_command, bc66_get_last_response, hinit, hg]
    · rcases ht : effectiveToken expRsp desc with _ | tok
      · simp [bc66_send_at_command, hinit, hg, ht] at h
      · rcases find_ret_cases tok desc.rsp_timeout chunks [] with hs | ⟨hto, hfo⟩
        · simp [bc66_send_at_command, hinit, hg, ht, hs] at h
        · simp [bc66_send_at_command, bc66_get_last_response, hinit, hg, ht, hfo]

/-- C10 witness: a call rejected as not initialized leaves the cached response
in place. -/
theorem c10_witness :
    bc66_get_last_response
        (bc66_send_at_command CmdType.read 10 none none [] sNoInit).state =
      bc66_get_last_response sNoInit :=
  c10_failures_preserve_last_response CmdType.read 10 none none [] sNoInit
    (Or.inl rfl)

/-- C3 counterexample: the claim fails as universally stated.  With the token
"\r\nOK\r\n" — which contains the line terminator past its own start — and the
buffer token ++ "\r\n" ++ "X", the matcher stops at the terminator found
INSIDE the token (its search starts one character past the token start) and
returns the span "\r\nOK\r\n" with "\r\nX" left over, not the span
token ++ "\r\n" with "X" left over.  With a 62-character token the span would
reach the 64-byte extraction capacity and nothing matches at all, and with the
empty token the terminator search starts past the terminator and nothing
matches either. -/
theorem c3_counterexample :
    bc66_at_parse (RSP_OK ++ CRLF ++ "X".data) RSP_OK ≠
      (some (RSP_OK ++ CRLF), "X".data) ∧
    bc66_at_parse (List.replicate 62 'A' ++ CRLF ++ []) (List.replicate 62 'A') ≠
      (some (List.replicate 62 'A' ++ CRLF), []) ∧
    bc66_at_parse (([] : List Char) ++ CRLF ++ []) ([] : List Char) ≠
      (some (([] : List Char) ++ CRLF), ([] : List Char)) := by
  refine ⟨by decide, by decide, by decide⟩

/-- C3 (amended): for every nonempty token that does not contain the line
terminator at any offset past its start and whose span token ++ "\r\n" is
strictly below the extraction capacity, a buffer holding
token ++ "\r\n" ++ trailing matches exactly the span token ++ "\r\n", and the
buffer afterwards holds exactly trailing. -/
theorem c3_match_trims_exact_span (tok trailing : List Char)
    (hne : tok ≠ [])
    (hcap : tok.length + 2 < MAX_RSP_SIZE)
    (hin : ∀ i, 1 ≤ i → CRLF.isPrefixOf (tok.drop i) = false) :
    bc66_at_parse (tok ++ CRLF ++ trailing) tok =
      (some (tok ++ CRLF), trailing) := by
  have hL : 1 ≤ tok.length := by
    cases tok with
    | nil => exact absurd rfl hne
    | cons a t => simp
  have hbufdrop : ∀ m, m ≤ tok.length →
      (tok ++ CRLF ++ trailing).drop m = tok.drop m ++ (CRLF ++ trailing) := by
    intro m hm
    rw [List.append_assoc, List.drop_append_of_le_length hm]
  have hs1 : strstr (tok ++ CRLF ++ trailing) tok = some 0 := by
    apply strstr_of_isPrefixOf
    rw [List.isPrefixOf_iff_prefix, List.append_assoc]
    exact List.prefix_append tok (CRLF ++ trailing)
  have hs2 : strstr ((tok ++ CRLF ++ trailing).drop 1) CRLF =
      some (tok.length - 1) := by
    apply strstr_eq_some_of
    · have hdd : ((tok ++ CRLF ++ trailing).drop 1).drop (tok.length - 1) =
          (tok ++ CRLF ++ trailing).drop tok.length := by
        rw [List.drop_drop]
        congr 1
        omega
      rw [hdd, hbufdrop tok.length le_rfl, List.drop_length]
      rw [List.isPrefixOf_iff_prefix]
      exact (List.prefix_append CRLF trailing).trans
        (by rw [List.nil_append])
    · intro j hj
      have hdd : ((tok ++ CRLF ++ trailing).drop 1).drop j =
          (tok ++ CRLF ++ trailing).drop (1 + j) := by
        rw [List.drop_drop]
      rw [hdd, hbufdrop (1 + j) (by omega)]
      rcases hsplit : tok.drop (1 + j) with _ | ⟨x, d⟩
      · have hlend := congrArg List.length hsplit
        simp [List.length_drop] at hlend
        omega
      · rcases d with _ | ⟨y, d2⟩
        · by_contra hcon
          rw [Bool.not_eq_false] at hcon
          rcases List.isPrefixOf_iff_prefix.mp hcon with ⟨t2, ht2⟩
          simp [CRLF] at ht2
        · by_contra hcon
          rw [Bool.not_eq_false] at hcon
          have hcon2 : CRLF.isPrefixOf (x :: y :: d2 ++ (CRLF ++ trailing)) =
              true := by simpa using hcon
          have hins := crlf_prefix_split hcon2
          have hfalse := hin (1 + j) (by omega)
          rw [hsplit] at hfalse
          rw [hins] at hfalse
          exact Bool.noConfusion hfalse
  have harith : tok.length - 1 + 3 = tok.length + 2 := by omega
  have hcond : tok.length - 1 + 3 < MAX_RSP_SIZE := by omega
  have hlen2 : (tok ++ CRLF).length = tok.length + 2 := by simp [CRLF]
  have e1 : ((tok ++ CRLF ++ trailing).drop 0).take (tok.length - 1 + 3) =
      tok ++ CRLF := by
    rw [List.drop_zero, harith, ← hlen2, List.take_left]
  have e2 : (tok ++ CRLF ++ trailing).take 0 ++
      (tok ++ CRLF ++ trailing).drop (0 + 1 + (tok.length - 1) + 2) =
      trailing := by
    have hidx : 0 + 1 + (tok.length - 1) + 2 = (tok ++ CRLF).length := by
      rw [hlen2]
      omega
    rw [List.take_zero, List.nil_append, hidx, List.drop_left]
  simp only [bc66_at_parse, hs1, hs2]
  rw [if_pos hcond, e1, e2]

/-- C3 witness: the token "OK" with trailing text "+X". -/
theorem c3_witness :
    bc66_at_parse ("OK".data ++ CRLF ++ "+X".data) "OK".data =
      (some ("OK".data ++ CRLF), "+X".data) :=
  c3_match_trims_exact_span "OK".data "+X".data (by decide) (by decide)
    (fun i hi => by
      match i, hi with
      | 1, _ => decide
      | n + 2, _ =>
        show CRLF.isPrefixOf (List.drop (n + 2) ['O', 'K']) = false
        rw [show List.drop (n + 2) ['O', 'K'] = List.drop n ([] : List Char)
              from rfl,
            List.drop_nil]
        decide)

/-- C8 counterexample: the claim fails as stated.  With the token "\r\nOK\r\n"
and the buffer "\r\nOK\r\nAB", the token occurs at index 0 and NO line
terminator follows the token (the bytes after it are just "AB"), yet the
matcher does produce a match and trims the buffer, because its terminator
search starts one character past the token start and finds the terminator
inside the token itself. -/
theorem c8_counterexample :
    strstr "\r\nOK\r\nAB".data RSP_OK = some 0 ∧
    strstr ("\r\nOK\r\nAB".data.drop (0 + RSP_OK.length)) CRLF = none ∧
    bc66_at_parse "\r\nOK\r\nAB".data RSP_OK = (some RSP_OK, "AB".data) := by
  refine ⟨by decide, by decide, by decide⟩

/-- C8 (amended): whenever the token is absent from the buffer, or the token
occurs but no line terminator occurs anywhere past the FIRST CHARACTER of its
first occurrence (rather than past the whole token), or the span up to the
terminator found would reach the extraction capacity, the matcher produces no
match and the buffer is left completely unchanged. -/
theorem c8_no_match_leaves_buffer (tok buf : List Char)
    (h : (∀ j, tok.isPrefixOf (buf.drop j) = false) ∨
      (∃ i, strstr buf tok = some i ∧
        ∀ p, i + 1 ≤ p → CRLF.isPrefixOf (buf.drop p) = false) ∨
      (∃ i j, strstr buf tok = some i ∧
        strstr (buf.drop (i + 1)) CRLF = some j ∧ MAX_RSP_SIZE ≤ j + 3)) :
    bc66_at_parse buf tok = (none, buf) := by
  rcases h with h | ⟨i, hi, hterm⟩ | ⟨i, j, hi, hj, hcap⟩
  · exact parse_of_strstr_none (strstr_eq_none_of h)
  · have hnone : strstr (buf.drop (i + 1)) CRLF = none := by
      apply strstr_eq_none_of
      intro p
      rw [List.drop_drop]
      exact hterm (i + 1 + p) (by omega)
    simp [bc66_at_parse, hi, hnone]
  · simp only [bc66_at_parse, hi, hj]
    rw [if_neg (Nat.not_lt.mpr hcap)]

/-- C8 witness: only a proper prefix "O" of the token "OK" has arrived; the
matcher reports no match and the buffer is unchanged. -/
theorem c8_witness :
    bc66_at_parse "O".data "OK".data = (none, "O".data) :=
  c8_no_match_leaves_buffer "OK".data "O".data
    (Or.inl (fun j => by
      match j with
      | 0 => decide
      | n + 1 =>
        show (['O', 'K'] : List Char).isPrefixOf
          (List.drop (n + 1) ['O']) = false
        rw [show List.drop (n + 1) ['O'] = List.drop n ([] : List Char)
              from rfl,
            List.drop_nil]
        decide))

end BC66
